import Mathlib

/-!
Verification of the silero-vad helper tools against their specification.

The repository holds two small Python programs:

* `bench_python.py` — a command-line benchmark that loads a VAD model once,
  then for each audio file reads it, performs `warmup` untimed detection
  calls, `runs` timed detection calls, and prints mean/min/max timing plus
  a real-time factor.
* `tests/test_snapshots.py` — a pytest snapshot-regression check that pins
  the inference runtime to one thread, computes detection results for three
  fixed samples, and either creates a JSON snapshot (deliberately failing)
  or asserts equality with the stored snapshot.

The shallow embedding below models Python floats that arise in this code as
exact rationals (`ℚ`): the only float operations performed are division,
comparison, list min/max and `statistics.mean` (which computes the exact
fraction internally), so rational arithmetic is the faithful idealization
used throughout.  Fallible Python operations (`ZeroDivisionError`,
`StatisticsError` on an empty sequence, `json.load` failure) are modelled
with `Option`.
-/

namespace Silero

/-- A Python float value as it appears in the benchmark report: either an
ordinary (finite) value, modelled as an exact rational, or the literal
`float("inf")` used by the real-time-factor guard. -/
inductive PyFloat where
  | finite (q : ℚ)
  | posInf
deriving DecidableEq

/-- The parsed command-line options of `bench_python.py` (`parse_args`).
`runs` and `warmup` are the loop bounds of Python's `range`, hence natural
numbers; `--sampling-rate` is an arbitrary integer CLI option. -/
structure Args where
  audio : List String
  runs : ℕ
  warmup : ℕ
  samplingRate : ℤ
  threshold : ℚ
  onnx : Bool
  opset : ℤ
  returnSeconds : Bool
deriving DecidableEq

/-- Python `statistics.mean`: raises `StatisticsError` on an empty sequence,
otherwise returns the exact sum divided by the length (the library computes
the sum exactly via `Fraction`). -/
def pyMean (xs : List ℚ) : Option ℚ :=
  match xs with
  | [] => none
  | _ => some (xs.sum / xs.length)

/-- Python builtin `min` over a list: raises `ValueError` on an empty list,
otherwise folds the binary minimum over the elements. -/
def pyMin : List ℚ → Option ℚ
  | [] => none
  | x :: xs => some (xs.foldl min x)

/-- Python builtin `max` over a list: raises `ValueError` on an empty list. -/
def pyMax : List ℚ → Option ℚ
  | [] => none
  | x :: xs => some (xs.foldl max x)

/-- Python float division `a / b`: raises `ZeroDivisionError` when `b == 0`. -/
def pyDiv (a b : ℚ) : Option ℚ :=
  if b = 0 then none else some (a / b)

/-- The per-file report printed by `main` in `bench_python.py`. -/
structure FileReport where
  path : String
  duration : ℚ
  runCount : ℕ
  warmupCount : ℕ
  meanTime : ℚ
  minTime : ℚ
  maxTime : ℚ
  rtf : PyFloat
deriving DecidableEq

/-- The timed loop `for _ in range(args.runs)` of `main`: one elapsed-time
sample per timed run, taken from the timing oracle `elapsed` (the oracle
stands for `time.perf_counter()` differences around the external detection
call). -/
def recordTimings (elapsed : ℕ → ℚ) (runs : ℕ) : List ℚ :=
  (List.range runs).map elapsed

/-- One iteration of the `for path in args.audio` loop of `main`
(`bench_python.py`), with the external collaborators abstracted to oracles:
`numel path` is the sample count of the audio returned by `read_audio`, and
`elapsed path i` is the wall-clock duration of the `i`-th timed detection
call on that file.  Mirrors the code in order: compute
`audio_duration = audio.numel() / float(args.sampling_rate)` (which raises
when the sampling rate is zero), record `runs` timings, aggregate them with
`statistics.mean` / `min` / `max` (which raise on an empty sequence), and
compute `rtf = mean_time / audio_duration if audio_duration else float("inf")`
(Python truthiness: the division branch is taken exactly when
`audio_duration` is nonzero). -/
def benchFile (args : Args) (numel : String → ℕ) (elapsed : String → ℕ → ℚ)
    (path : String) : Option FileReport := do
  let audioDuration ← pyDiv (numel path : ℚ) (args.samplingRate : ℚ)
  let timings := recordTimings (elapsed path) args.runs
  let meanTime ← pyMean timings
  let minTime ← pyMin timings
  let maxTime ← pyMax timings
  let rtf := if audioDuration ≠ 0 then PyFloat.finite (meanTime / audioDuration)
             else PyFloat.posInf
  some ⟨path, audioDuration, args.runs, args.warmup, meanTime, minTime, maxTime, rtf⟩

/-- The whole `main` loop as a value: the per-file reports in input order.
Any per-file failure aborts the run (the benchmark has no per-file
isolation), which the `Option` monad models. -/
def mainReports (args : Args) (numel : String → ℕ) (elapsed : String → ℕ → ℚ) :
    Option (List FileReport) :=
  args.audio.mapM (benchFile args numel elapsed)

/-- The externally observable calls the two tools make, in order.
`detect p timed` is one invocation of `get_speech_timestamps` on file `p`;
`timed` records whether the invocation sits inside the benchmark's timed
loop (warmup and snapshot invocations are untimed). -/
inductive Ev where
  | setNumThreads (n : ℕ)
  | loadModel (onnx : Bool) (opset : ℤ)
  | readFile (path : String) (samplingRate : ℤ)
  | detect (path : String) (timed : Bool)
deriving DecidableEq

/-- The calls made by one iteration of `main`'s `for path in args.audio`
loop: one `read_audio`, then `args.warmup` discarded detection calls, then
`args.runs` timed detection calls. -/
def fileTrace (args : Args) (path : String) : List Ev :=
  Ev.readFile path args.samplingRate ::
    (List.replicate args.warmup (Ev.detect path false) ++
     List.replicate args.runs (Ev.detect path true))

/-- The calls made by `bench_python.main`: a single
`load_silero_vad(onnx=args.onnx, opset_version=args.opset)` before the file
loop, then the per-file calls.  `bench_python.py` contains no thread-count
pin, so no `setNumThreads` event ever occurs here. -/
def mainTrace (args : Args) : List Ev :=
  Ev.loadModel args.onnx args.opset :: args.audio.flatMap (fileTrace args)

/-- The hardcoded `SAMPLES` list of `tests/test_snapshots.py`. -/
def snapshotSamples : List String :=
  ["tests/data/test.wav", "tests/data/test.opus", "tests/data/test.mp3"]

/-- The calls made by `_compute_snapshot`: for each sample, one `read_audio`
at the fixed sampling rate 16000 and one (untimed) detection call. -/
def computeSnapshotTrace (samples : List String) : List Ev :=
  samples.flatMap (fun s => [Ev.readFile s 16000, Ev.detect s false])

/-- The calls made by importing and running `tests/test_snapshots.py`:
`torch.set_num_threads(1)` at module import (before any test body), then
`test_jit_snapshot` (loads the JIT model and computes the snapshot), then
`test_onnx_snapshot` (same with the ONNX model).  `load_silero_vad` is
called without an explicit opset there; 16 is the library default recorded
in the spec's CLI table. -/
def snapshotModuleTrace : List Ev :=
  Ev.setNumThreads 1 ::
    ((Ev.loadModel false 16 :: computeSnapshotTrace snapshotSamples) ++
     (Ev.loadModel true 16 :: computeSnapshotTrace snapshotSamples))

/-- Recognizer for model-load events. -/
def isLoadEv : Ev → Bool
  | Ev.loadModel _ _ => true
  | _ => false

/-- Recognizer for `read_audio` events on a given file. -/
def isReadEv (p : String) : Ev → Bool
  | Ev.readFile q _ => q == p
  | _ => false

/-- Recognizer for detection calls on a given file with the given timed
flag. -/
def isDetectEv (p : String) (timed : Bool) : Ev → Bool
  | Ev.detect q b => q == p && b == timed
  | _ => false

/-- Recognizer for any detection call. -/
def isAnyDetectEv : Ev → Bool
  | Ev.detect _ _ => true
  | _ => false

/-- Recognizer for the thread-count pin. -/
def isPinEv : Ev → Bool
  | Ev.setNumThreads _ => true
  | _ => false

/-- The JSON values that `json.dump` / `json.load` exchange in
`tests/test_snapshots.py`.  Numbers are modelled as exact rationals: the
snapshot data holds only ints and timestamps rounded to three decimals, and
Python's `==` between numbers is numeric equality, so the int/float
distinction is not observable here.  Objects are key/value lists in
insertion order (Python dicts preserve insertion order). -/
inductive Json where
  | null
  | bool (b : Bool)
  | num (q : ℚ)
  | str (s : String)
  | arr (elems : List Json)
  | obj (fields : List (String × Json))

/-- The token stream a serialized JSON document reduces to once whitespace
(`indent=2` only inserts whitespace) and lexical detail are stripped. -/
inductive JTok where
  | lbrace
  | rbrace
  | lbrack
  | rbrack
  | colon
  | comma
  | tnull
  | tbool (b : Bool)
  | tnum (q : ℚ)
  | tstr (s : String)
deriving DecidableEq

/-- Python's `<` on strings, the comparison `sorted()` uses: strict
lexicographic order on the code points. -/
def charListLt : List Char → List Char → Bool
  | _, [] => false
  | [], _ :: _ => true
  | a :: as, b :: bs =>
      if a.toNat < b.toNat then true
      else if b.toNat < a.toNat then false
      else charListLt as bs

/-- The non-strict key order induced by `charListLt` (a total preorder, as
`sorted()` requires). -/
def keyLe (a b : String) : Bool :=
  !(charListLt b.data a.data)

/-- Python `sorted()` applied to the items of a dict by
`json.dump(..., sort_keys=True)`: a stable sort of the key/value pairs by
key, in Python's code-point string order. -/
def sortFields (kvs : List (String × Json)) : List (String × Json) :=
  kvs.insertionSort (fun a b => keyLe a.1 b.1 = true)

mutual

/-- The structural effect of `json.dump(..., sort_keys=True)` followed by
`json.load`: every object's fields end up in sorted key order, recursively.
-/
def canon : Json → Json
  | Json.null => Json.null
  | Json.bool b => Json.bool b
  | Json.num q => Json.num q
  | Json.str s => Json.str s
  | Json.arr xs => Json.arr (canonElems xs)
  | Json.obj kvs => Json.obj (sortFields (canonFields kvs))

/-- Canonicalization mapped over array elements. -/
def canonElems : List Json → List Json
  | [] => []
  | x :: xs => canon x :: canonElems xs

/-- Canonicalization mapped over the values of an object's fields. -/
def canonFields : List (String × Json) → List (String × Json)
  | [] => []
  | (k, v) :: kvs => (k, canon v) :: canonFields kvs

end

mutual

/-- Serialization of a JSON value to its token stream, writing object
fields in the order they are listed (the key sorting of
`json.dump(..., sort_keys=True)` is applied by `canon` before this). -/
def dumpTokens : Json → List JTok
  | Json.null => [JTok.tnull]
  | Json.bool b => [JTok.tbool b]
  | Json.num q => [JTok.tnum q]
  | Json.str s => [JTok.tstr s]
  | Json.arr [] => [JTok.lbrack, JTok.rbrack]
  | Json.arr (x :: xs) =>
      JTok.lbrack :: (dumpTokens x ++ dumpElemsTail xs ++ [JTok.rbrack])
  | Json.obj [] => [JTok.lbrace, JTok.rbrace]
  | Json.obj ((k, v) :: kvs) =>
      JTok.lbrace :: JTok.tstr k :: JTok.colon ::
        (dumpTokens v ++ dumpFieldsTail kvs ++ [JTok.rbrace])

/-- The `, elem, elem, ...` continuation of a serialized array. -/
def dumpElemsTail : List Json → List JTok
  | [] => []
  | x :: xs => JTok.comma :: (dumpTokens x ++ dumpElemsTail xs)

/-- The `, "key": value, ...` continuation of a serialized object. -/
def dumpFieldsTail : List (String × Json) → List JTok
  | [] => []
  | (k, v) :: kvs =>
      JTok.comma :: JTok.tstr k :: JTok.colon :: (dumpTokens v ++ dumpFieldsTail kvs)

end

/-- Python `json.dump(data, f, indent=2, sort_keys=True)` at token level: sort all
object keys, then serialize. -/
def jsonDump (j : Json) : List JTok :=
  dumpTokens (canon j)

mutual

/-- Recursive-descent parse of one JSON value from a token stream (the
grammar `json.load` accepts, at token level).  Returns the value and the
unconsumed remainder, which is always strictly shorter than the input. -/
def parseVal : (toks : List JTok) →
    Option (Json × {rest : List JTok // rest.length < toks.length})
  | JTok.tnull :: rest => some (Json.null, ⟨rest, by simp⟩)
  | JTok.tbool b :: rest => some (Json.bool b, ⟨rest, by simp⟩)
  | JTok.tnum q :: rest => some (Json.num q, ⟨rest, by simp⟩)
  | JTok.tstr s :: rest => some (Json.str s, ⟨rest, by simp⟩)
  | JTok.lbrack :: JTok.rbrack :: rest =>
      some (Json.arr [], ⟨rest, by simp only [List.length_cons]; omega⟩)
  | JTok.lbrack :: rest =>
      match parseVal rest with
      | some (x, ⟨rest1, h1⟩) =>
        match parseElemsTail rest1 with
        | some (xs, ⟨rest2, h2⟩) =>
            some (Json.arr (x :: xs), ⟨rest2, by simp only [List.length_cons]; omega⟩)
        | none => none
      | none => none
  | JTok.lbrace :: JTok.rbrace :: rest =>
      some (Json.obj [], ⟨rest, by simp only [List.length_cons]; omega⟩)
  | JTok.lbrace :: rest =>
      match parseMember rest with
      | some (kv, ⟨rest1, h1⟩) =>
        match parseFieldsTail rest1 with
        | some (kvs, ⟨rest2, h2⟩) =>
            some (Json.obj (kv :: kvs), ⟨rest2, by simp only [List.length_cons]; omega⟩)
        | none => none
      | none => none
  | _ => none
termination_by toks => toks.length
decreasing_by all_goals (simp only [List.length_cons] at *; omega)

/-- Parse the `, elem, ..., ]` continuation of an array. -/
def parseElemsTail : (toks : List JTok) →
    Option (List Json × {rest : List JTok // rest.length < toks.length})
  | JTok.rbrack :: rest => some ([], ⟨rest, by simp⟩)
  | JTok.comma :: rest =>
      match parseVal rest with
      | some (x, ⟨rest1, h1⟩) =>
        match parseElemsTail rest1 with
        | some (xs, ⟨rest2, h2⟩) =>
            some (x :: xs, ⟨rest2, by simp only [List.length_cons]; omega⟩)
        | none => none
      | none => none
  | _ => none
termination_by toks => toks.length
decreasing_by all_goals (simp only [List.length_cons] at *; omega)

/-- Parse one `"key": value` member of an object. -/
def parseMember : (toks : List JTok) →
    Option ((String × Json) × {rest : List JTok // rest.length < toks.length})
  | JTok.tstr k :: JTok.colon :: rest =>
      match parseVal rest with
      | some (v, ⟨rest1, h1⟩) =>
          some ((k, v), ⟨rest1, by simp only [List.length_cons]; omega⟩)
      | none => none
  | _ => none
termination_by toks => toks.length
decreasing_by all_goals (simp only [List.length_cons] at *; omega)

/-- Parse the `, "key": value, ..., }` continuation of an object. -/
def parseFieldsTail : (toks : List JTok) →
    Option (List (String × Json) × {rest : List JTok // rest.length < toks.length})
  | JTok.rbrace :: rest => some ([], ⟨rest, by simp⟩)
  | JTok.comma :: rest =>
      match parseMember rest with
      | some (kv, ⟨rest1, h1⟩) =>
        match parseFieldsTail rest1 with
        | some (kvs, ⟨rest2, h2⟩) =>
            some (kv :: kvs, ⟨rest2, by simp only [List.length_cons]; omega⟩)
        | none => none
      | none => none
  | _ => none
termination_by toks => toks.length
decreasing_by all_goals (simp only [List.length_cons] at *; omega)

end

/-- The parser `parseVal` with the length certificate dropped. -/
def parseValW (toks : List JTok) : Option (Json × List JTok) :=
  match parseVal toks with
  | some (j, rest) => some (j, rest.1)
  | none => none

/-- The parser `parseElemsTail` with the length certificate dropped. -/
def parseElemsTailW (toks : List JTok) : Option (List Json × List JTok) :=
  match parseElemsTail toks with
  | some (xs, rest) => some (xs, rest.1)
  | none => none

/-- The parser `parseMember` with the length certificate dropped. -/
def parseMemberW (toks : List JTok) : Option ((String × Json) × List JTok) :=
  match parseMember toks with
  | some (kv, rest) => some (kv, rest.1)
  | none => none

/-- The parser `parseFieldsTail` with the length certificate dropped. -/
def parseFieldsTailW (toks : List JTok) : Option (List (String × Json) × List JTok) :=
  match parseFieldsTail toks with
  | some (kvs, rest) => some (kvs, rest.1)
  | none => none

/-- Python `json.load(f)`: parse one JSON value and require the whole document to
be consumed; anything else raises, which `none` models. -/
def jsonLoad (toks : List JTok) : Option Json :=
  match parseValW toks with
  | some (j, []) => some j
  | _ => none

/-- Python dict lookup `d[k]` on an object's field list: the value of the
first field with the given key (dicts built by this code never hold a key
twice). -/
def jlookup (k : String) : List (String × Json) → Option Json
  | [] => none
  | (k', v) :: rest => if k = k' then some v else jlookup k rest

mutual

/-- Python `==` between the JSON structures compared by
`assert data == expected` in `_write_or_assert`: numeric equality on
numbers, elementwise equality on lists (order-relevant), and dict equality
on objects — same size and every key of the left object present in the
right with an `==` value, which is order-irrelevant. -/
def jeq : Json → Json → Bool
  | Json.null, Json.null => true
  | Json.bool a, Json.bool b => a == b
  | Json.num a, Json.num b => a == b
  | Json.str a, Json.str b => a == b
  | Json.arr xs, Json.arr ys => jeqElems xs ys
  | Json.obj xs, Json.obj ys => (xs.length == ys.length) && jeqFields xs ys
  | _, _ => false

/-- Elementwise `==` of two lists, false on a length mismatch. -/
def jeqElems : List Json → List Json → Bool
  | [], [] => true
  | x :: xs, y :: ys => jeq x y && jeqElems xs ys
  | _, _ => false

/-- Every field of the first list has a `==` value under the same key in
the second list. -/
def jeqFields : List (String × Json) → List (String × Json) → Bool
  | [], _ => true
  | (k, v) :: rest, ys =>
      (match jlookup k ys with
       | some w => jeq v w
       | none => false) && jeqFields rest ys

end

/-- One `{start, end}` speech segment produced by the external detector
(schema from the spec: `{"start": <float>, "end": <float>}`); `stop` models
the `"end"` key, which is a Lean keyword. -/
structure SpeechSegment where
  start : ℚ
  stop : ℚ
deriving DecidableEq

/-- The dict the detector returns for one segment, keys in insertion order
`start`, `end`. -/
def SpeechSegment.toJson (s : SpeechSegment) : Json :=
  Json.obj [("start", Json.num s.start), ("end", Json.num s.stop)]

/-- One element of the list built by `_compute_snapshot`: the dict literal
`{"file": ..., "sampling_rate": ..., "speech_timestamps": ...}`. -/
structure FileSnapshot where
  file : String
  samplingRate : ℤ
  speechTimestamps : List SpeechSegment
deriving DecidableEq

/-- The dict literal of `_compute_snapshot`, keys in insertion order. -/
def FileSnapshot.toJson (fs : FileSnapshot) : Json :=
  Json.obj [("file", Json.str fs.file),
            ("sampling_rate", Json.num (fs.samplingRate : ℚ)),
            ("speech_timestamps", Json.arr (fs.speechTimestamps.map SpeechSegment.toJson))]

/-- The record assembled by `test_jit_snapshot` / `test_onnx_snapshot`:
`{"model": <backend name>, "snapshots": _compute_snapshot(...)}`. -/
structure SnapshotRecord where
  model : String
  snapshots : List FileSnapshot
deriving DecidableEq

/-- The dict literal of the test bodies, keys in insertion order. -/
def SnapshotRecord.toJson (r : SnapshotRecord) : Json :=
  Json.obj [("model", Json.str r.model),
            ("snapshots", Json.arr (r.snapshots.map FileSnapshot.toJson))]

/-- The file-system state `_write_or_assert` touches: whether the snapshot
directory exists, and the content of the snapshot file for the backend
under test (`none` when absent). -/
structure FSState where
  dirCreated : Bool
  snapshotFile : Option (List JTok)
deriving DecidableEq

/-- How one snapshot test run ends. -/
inductive TestOutcome where
  | passed
  | failedSnapshotCreated
  | failedMismatch
  | loadError
deriving DecidableEq

/-- The function `_write_or_assert(snapshot_path, data)` from `tests/test_snapshots.py`:
create the snapshot directory with `mkdir(exist_ok=True)` (idempotent, no
error when present), then — if the snapshot file exists — `json.load` it
(a raise is `loadError`) and `assert data == expected`; otherwise
`json.dump` the record into the file and `pytest.fail` deliberately. -/
def writeOrAssert (st : FSState) (data : Json) : FSState × TestOutcome :=
  let st1 : FSState := { st with dirCreated := true }
  match st1.snapshotFile with
  | some content =>
      match jsonLoad content with
      | some expected =>
          (st1, if jeq data expected then TestOutcome.passed else TestOutcome.failedMismatch)
      | none => (st1, TestOutcome.loadError)
  | none =>
      ({ st1 with snapshotFile := some (jsonDump data) }, TestOutcome.failedSnapshotCreated)


/-- A concrete run configuration used to instantiate the theorems below:
one file, three timed runs, no warmup, the default sampling rate,
threshold and opset. -/
def sampleArgs : Args :=
  { audio := ["test.wav"], runs := 3, warmup := 0, samplingRate := 16000,
    threshold := 1/2, onnx := false, opset := 16, returnSeconds := false }

/-- A concrete audio-size oracle: every file holds 32000 samples, i.e.
2 seconds at 16 kHz. -/
def sampleNumel : String → ℕ := fun _ => 32000

/-- Fixed detection durations 0.10 s, 0.20 s, 0.30 s across the three
timed invocations (the spec's mocked-call scenario). -/
def rampElapsed : String → ℕ → ℚ := fun _ i => ((i : ℚ) + 1) / 10

/-- A constant detection duration of 0.5 s per call (the spec's
real-time-factor scenario: 2 s of audio, 0.5 s mean, rtf 0.250). -/
def constElapsed : String → ℕ → ℚ := fun _ _ => 1/2


/-- Erase the opset argument of model-load events (for stating that apart
from that one argument, traces do not depend on the opset). -/
def scrubOpset : Ev → Ev
  | Ev.loadModel o _ => Ev.loadModel o 0
  | e => e

/-- A concrete snapshot record used to instantiate the snapshot theorems. -/
def snapRecA : SnapshotRecord :=
  ⟨"jit", [⟨"test.wav", 16000, [⟨1/2, 3/2⟩]⟩]⟩

/-- The record `snapRecA` with the single `end` timestamp moved by 0.001. -/
def snapRecB : SnapshotRecord :=
  ⟨"jit", [⟨"test.wav", 16000, [⟨1/2, 1501/1000⟩]⟩]⟩

/-! ### Ground facts about the snapshot keys' sort order -/

theorem keyLe_start_end : keyLe "start" "end" = false := by decide

theorem keyLe_file_samplingRate : keyLe "file" "sampling_rate" = true := by decide

theorem keyLe_samplingRate_speechTimestamps :
    keyLe "sampling_rate" "speech_timestamps" = true := by decide

theorem keyLe_model_snapshots : keyLe "model" "snapshots" = true := by decide

/-! ### The canonical (key-sorted) form of the snapshot structures -/

/-- The segment dict after `sort_keys=True`: `"end"` sorts before
`"start"`. -/
theorem canon_segment (s : SpeechSegment) :
    canon (SpeechSegment.toJson s) =
      Json.obj [("end", Json.num s.stop), ("start", Json.num s.start)] := by
  simp [canon, canonFields, sortFields, SpeechSegment.toJson,
    List.insertionSort, List.orderedInsert, keyLe_start_end]

/-- The per-file dict's keys are already alphabetical, so sorting leaves
them in place. -/
theorem canon_fileSnapshot (fs : FileSnapshot) :
    canon (FileSnapshot.toJson fs) =
      Json.obj [("file", Json.str fs.file),
                ("sampling_rate", Json.num (fs.samplingRate : ℚ)),
                ("speech_timestamps",
                  Json.arr (fs.speechTimestamps.map (fun s => canon (SpeechSegment.toJson s))))] := by
  have hmap : ∀ l : List SpeechSegment,
      canonElems (l.map SpeechSegment.toJson) =
        l.map (fun s => canon (SpeechSegment.toJson s)) := by
    intro l
    induction l with
    | nil => simp [canonElems]
    | cons x xs ih => simp [canonElems, ih]
  simp [canon, canonFields, sortFields, FileSnapshot.toJson,
    List.insertionSort, List.orderedInsert, keyLe_file_samplingRate,
    keyLe_samplingRate_speechTimestamps, hmap]

/-- The top-level record's keys are already alphabetical. -/
theorem canon_record (r : SnapshotRecord) :
    canon (SnapshotRecord.toJson r) =
      Json.obj [("model", Json.str r.model),
                ("snapshots",
                  Json.arr (r.snapshots.map (fun fs => canon (FileSnapshot.toJson fs))))] := by
  have hmap : ∀ l : List FileSnapshot,
      canonElems (l.map FileSnapshot.toJson) =
        l.map (fun fs => canon (FileSnapshot.toJson fs)) := by
    intro l
    induction l with
    | nil => simp [canonElems]
    | cons x xs ih => simp [canonElems, ih]
  simp [canon, canonFields, sortFields, SnapshotRecord.toJson,
    List.insertionSort, List.orderedInsert, keyLe_model_snapshots, hmap]


/-! ### How the wrapped parsers decompose on cons cells -/

theorem parseValW_tnull (rest : List JTok) :
    parseValW (JTok.tnull :: rest) = some (Json.null, rest) := by
  simp [parseValW, parseVal]

theorem parseValW_tbool (b : Bool) (rest : List JTok) :
    parseValW (JTok.tbool b :: rest) = some (Json.bool b, rest) := by
  simp [parseValW, parseVal]

theorem parseValW_tnum (q : ℚ) (rest : List JTok) :
    parseValW (JTok.tnum q :: rest) = some (Json.num q, rest) := by
  simp [parseValW, parseVal]

theorem parseValW_tstr (str rest') :
    parseValW (JTok.tstr str :: rest') = some (Json.str str, rest') := by
  simp [parseValW, parseVal]

theorem parseValW_arr_nil (rest : List JTok) :
    parseValW (JTok.lbrack :: JTok.rbrack :: rest) = some (Json.arr [], rest) := by
  simp [parseValW, parseVal]

theorem parseValW_obj_nil (rest : List JTok) :
    parseValW (JTok.lbrace :: JTok.rbrace :: rest) = some (Json.obj [], rest) := by
  simp [parseValW, parseVal]

theorem parseValW_arr_step (t : JTok) (ht : t ≠ JTok.rbrack) (toks rest1 : List JTok)
    (x : Json) (hx : parseValW (t :: toks) = some (x, rest1)) :
    parseValW (JTok.lbrack :: t :: toks) =
      match parseElemsTailW rest1 with
      | some (xs, rest2) => some (Json.arr (x :: xs), rest2)
      | none => none := by
  rcases h1 : parseVal (t :: toks) with _ | ⟨x', ⟨r1, hr1⟩⟩
  · rw [parseValW, h1] at hx; exact absurd hx (by simp)
  · rw [parseValW, h1] at hx
    simp only [Option.some.injEq, Prod.mk.injEq] at hx
    obtain ⟨hx1, hx2⟩ := hx
    subst hx1; subst hx2
    cases t <;> try exact absurd rfl ht
    all_goals
      simp only [parseValW, parseVal, h1, parseElemsTailW]
      rcases h2 : parseElemsTail r1 with _ | ⟨xs, ⟨r2, hr2⟩⟩ <;> simp [h2]

theorem parseValW_obj_cons (k : String) (toks : List JTok) :
    parseValW (JTok.lbrace :: JTok.tstr k :: toks) =
      match parseMemberW (JTok.tstr k :: toks) with
      | some (kv, rest1) =>
        match parseFieldsTailW rest1 with
        | some (kvs, rest2) => some (Json.obj (kv :: kvs), rest2)
        | none => none
      | none => none := by
  simp only [parseValW, parseVal, parseMemberW]
  rcases h1 : parseMember _ with _ | ⟨kv, ⟨r1, hr1⟩⟩
  · simp [h1]
  · simp only [h1]
    rcases h2 : parseFieldsTail r1 with _ | ⟨kvs, ⟨r2, hr2⟩⟩ <;>
      simp [h2, parseFieldsTailW]

theorem parseElemsTailW_rbrack (rest : List JTok) :
    parseElemsTailW (JTok.rbrack :: rest) = some ([], rest) := by
  simp [parseElemsTailW, parseElemsTail]

theorem parseElemsTailW_comma (toks : List JTok) :
    parseElemsTailW (JTok.comma :: toks) =
      match parseValW toks with
      | some (x, rest1) =>
        match parseElemsTailW rest1 with
        | some (xs, rest2) => some (x :: xs, rest2)
        | none => none
      | none => none := by
  simp only [parseElemsTailW, parseElemsTail, parseValW]
  rcases h1 : parseVal toks with _ | ⟨x, ⟨r1, hr1⟩⟩
  · simp [h1]
  · simp only [h1]
    rcases h2 : parseElemsTail r1 with _ | ⟨xs, ⟨r2, hr2⟩⟩ <;> simp [h2]

theorem parseMemberW_cons (k : String) (toks : List JTok) :
    parseMemberW (JTok.tstr k :: JTok.colon :: toks) =
      match parseValW toks with
      | some (v, rest1) => some ((k, v), rest1)
      | none => none := by
  simp only [parseMemberW, parseMember, parseValW]
  rcases h1 : parseVal toks with _ | ⟨v, ⟨r1, hr1⟩⟩ <;> simp [h1]

theorem parseFieldsTailW_rbrace (rest : List JTok) :
    parseFieldsTailW (JTok.rbrace :: rest) = some ([], rest) := by
  simp [parseFieldsTailW, parseFieldsTail]

theorem parseFieldsTailW_comma (toks : List JTok) :
    parseFieldsTailW (JTok.comma :: toks) =
      match parseMemberW toks with
      | some (kv, rest1) =>
        match parseFieldsTailW rest1 with
        | some (kvs, rest2) => some (kv :: kvs, rest2)
        | none => none
      | none => none := by
  simp only [parseFieldsTailW, parseFieldsTail, parseMemberW]
  rcases h1 : parseMember toks with _ | ⟨kv, ⟨r1, hr1⟩⟩
  · simp [h1]
  · simp only [h1]
    rcases h2 : parseFieldsTail r1 with _ | ⟨kvs, ⟨r2, hr2⟩⟩ <;> simp [h2]

/-! ### Serialize-then-parse round trip -/

/-- A serialized JSON value never starts with a closing bracket (needed to
steer the array parser's lookahead). -/
theorem dumpTokens_head (j : Json) :
    ∃ t ts, dumpTokens j = t :: ts ∧ t ≠ JTok.rbrack := by
  cases j with
  | null => exact ⟨JTok.tnull, [], by simp [dumpTokens], by simp⟩
  | bool b => exact ⟨JTok.tbool b, [], by simp [dumpTokens], by simp⟩
  | num q => exact ⟨JTok.tnum q, [], by simp [dumpTokens], by simp⟩
  | str s => exact ⟨JTok.tstr s, [], by simp [dumpTokens], by simp⟩
  | arr elems =>
    cases elems with
    | nil => exact ⟨JTok.lbrack, [JTok.rbrack], by simp [dumpTokens], by simp⟩
    | cons x xs =>
      exact ⟨JTok.lbrack, dumpTokens x ++ (dumpElemsTail xs ++ [JTok.rbrack]),
        by simp [dumpTokens], by simp⟩
  | obj fields =>
    cases fields with
    | nil => exact ⟨JTok.lbrace, [JTok.rbrace], by simp [dumpTokens], by simp⟩
    | cons kv kvs =>
      obtain ⟨k, v⟩ := kv
      exact ⟨JTok.lbrace,
        JTok.tstr k :: JTok.colon :: (dumpTokens v ++ (dumpFieldsTail kvs ++ [JTok.rbrace])),
        by simp [dumpTokens], by simp⟩

mutual

/-- Parsing a serialized value consumes exactly its tokens and returns the
value unchanged. -/
theorem parse_dumpTokens (j : Json) (rest : List JTok) :
    parseValW (dumpTokens j ++ rest) = some (j, rest) := by
  cases j with
  | null => simp [dumpTokens, parseValW_tnull]
  | bool b => simp [dumpTokens, parseValW_tbool]
  | num q => simp [dumpTokens, parseValW_tnum]
  | str s => simp [dumpTokens, parseValW_tstr]
  | arr elems =>
    cases elems with
    | nil => simp [dumpTokens, parseValW_arr_nil]
    | cons x xs =>
      obtain ⟨t, ts, hts, htne⟩ := dumpTokens_head x
      have hx : parseValW (t :: (ts ++ (dumpElemsTail xs ++ JTok.rbrack :: rest))) =
          some (x, dumpElemsTail xs ++ JTok.rbrack :: rest) := by
        have := parse_dumpTokens x (dumpElemsTail xs ++ JTok.rbrack :: rest)
        rw [hts] at this
        simpa using this
      have harr := parseValW_arr_step t htne
        (ts ++ (dumpElemsTail xs ++ JTok.rbrack :: rest))
        (dumpElemsTail xs ++ JTok.rbrack :: rest) x hx
      have htail := parse_dumpElemsTail xs rest
      calc parseValW (dumpTokens (Json.arr (x :: xs)) ++ rest)
          = parseValW (JTok.lbrack :: t ::
              (ts ++ (dumpElemsTail xs ++ JTok.rbrack :: rest))) := by
            simp [dumpTokens, hts]
        _ = some (Json.arr (x :: xs), rest) := by rw [harr]; simp [htail]
  | obj fields =>
    cases fields with
    | nil => simp [dumpTokens, parseValW_obj_nil]
    | cons kv kvs =>
      obtain ⟨k, v⟩ := kv
      have hv := parse_dumpTokens v (dumpFieldsTail kvs ++ JTok.rbrace :: rest)
      have htail := parse_dumpFieldsTail kvs rest
      calc parseValW (dumpTokens (Json.obj ((k, v) :: kvs)) ++ rest)
          = parseValW (JTok.lbrace :: JTok.tstr k :: JTok.colon ::
              (dumpTokens v ++ (dumpFieldsTail kvs ++ JTok.rbrace :: rest))) := by
            simp [dumpTokens]
        _ = some (Json.obj ((k, v) :: kvs), rest) := by
            rw [parseValW_obj_cons, parseMemberW_cons]
            simp [hv, htail]

/-- Parsing a serialized array continuation returns the remaining elements. -/
theorem parse_dumpElemsTail (xs : List Json) (rest : List JTok) :
    parseElemsTailW (dumpElemsTail xs ++ JTok.rbrack :: rest) = some (xs, rest) := by
  cases xs with
  | nil => simp [dumpElemsTail, parseElemsTailW_rbrack]
  | cons x xs =>
    have hx := parse_dumpTokens x (dumpElemsTail xs ++ JTok.rbrack :: rest)
    have htail := parse_dumpElemsTail xs rest
    calc parseElemsTailW (dumpElemsTail (x :: xs) ++ JTok.rbrack :: rest)
        = parseElemsTailW (JTok.comma ::
            (dumpTokens x ++ (dumpElemsTail xs ++ JTok.rbrack :: rest))) := by
          simp [dumpElemsTail]
      _ = some (x :: xs, rest) := by rw [parseElemsTailW_comma]; simp [hx, htail]

/-- Parsing a serialized object continuation returns the remaining fields. -/
theorem parse_dumpFieldsTail (kvs : List (String × Json)) (rest : List JTok) :
    parseFieldsTailW (dumpFieldsTail kvs ++ JTok.rbrace :: rest) = some (kvs, rest) := by
  cases kvs with
  | nil => simp [dumpFieldsTail, parseFieldsTailW_rbrace]
  | cons kv kvs =>
    obtain ⟨k, v⟩ := kv
    have hv := parse_dumpTokens v (dumpFieldsTail kvs ++ JTok.rbrace :: rest)
    have htail := parse_dumpFieldsTail kvs rest
    calc parseFieldsTailW (dumpFieldsTail ((k, v) :: kvs) ++ JTok.rbrace :: rest)
        = parseFieldsTailW (JTok.comma :: JTok.tstr k :: JTok.colon ::
            (dumpTokens v ++ (dumpFieldsTail kvs ++ JTok.rbrace :: rest))) := by
          simp [dumpFieldsTail]
      _ = some ((k, v) :: kvs, rest) := by
          rw [parseFieldsTailW_comma, parseMemberW_cons]
          simp [hv, htail]

end

/-- Applying `json.load` to a `json.dump`-serialized value recovers the
key-canonicalized structure (and consumes the whole document). -/
theorem jsonLoad_jsonDump (j : Json) : jsonLoad (jsonDump j) = some (canon j) := by
  have h := parse_dumpTokens (canon j) []
  rw [List.append_nil] at h
  rw [jsonLoad, jsonDump, h]

/-! ### Python `==` on snapshot records is exact structural equality -/

/-- A freshly computed segment dict compares `==`-equal to a loaded
(key-sorted) segment dict exactly when the segments agree. -/
theorem jeq_segment (s t : SpeechSegment) :
    jeq (SpeechSegment.toJson s) (canon (SpeechSegment.toJson t)) = true ↔ s = t := by
  cases s with | mk a b =>
  cases t with | mk c d =>
  rw [canon_segment]
  simp [SpeechSegment.toJson, jeq, jeqFields, jlookup, SpeechSegment.mk.injEq]

/-- Lifting `jeq_segment` elementwise over the `speech_timestamps` array. -/
theorem jeq_segList (xs ts : List SpeechSegment) :
    jeqElems (xs.map SpeechSegment.toJson)
        (ts.map (fun t => canon (SpeechSegment.toJson t))) = true ↔ xs = ts := by
  induction xs generalizing ts with
  | nil => cases ts <;> simp [jeqElems]
  | cons x xs ih =>
    cases ts with
    | nil => simp [jeqElems]
    | cons t ts => simp [jeqElems, ih, jeq_segment x t]

/-- A freshly computed per-file dict compares `==`-equal to a loaded
per-file dict exactly when the snapshots agree. -/
theorem jeq_fileSnapshot (a b : FileSnapshot) :
    jeq (FileSnapshot.toJson a) (canon (FileSnapshot.toJson b)) = true ↔ a = b := by
  cases a with | mk f sr segs =>
  cases b with | mk f' sr' segs' =>
  rw [canon_fileSnapshot]
  simp [FileSnapshot.toJson, jeq, jeqFields, jlookup, FileSnapshot.mk.injEq,
    jeq_segList]

/-- Lifting `jeq_fileSnapshot` elementwise over the `snapshots` array. -/
theorem jeq_fileSnapList (xs ts : List FileSnapshot) :
    jeqElems (xs.map FileSnapshot.toJson)
        (ts.map (fun t => canon (FileSnapshot.toJson t))) = true ↔ xs = ts := by
  induction xs generalizing ts with
  | nil => cases ts <;> simp [jeqElems]
  | cons x xs ih =>
    cases ts with
    | nil => simp [jeqElems]
    | cons t ts => simp [jeqElems, ih, jeq_fileSnapshot x t]

/-- The comparison `_write_or_assert` performs — fresh record against the
loaded canonical form — holds exactly when the records are structurally
identical: no tolerance anywhere. -/
theorem jeq_record (r r' : SnapshotRecord) :
    jeq (SnapshotRecord.toJson r) (canon (SnapshotRecord.toJson r')) = true ↔ r = r' := by
  cases r with | mk m snaps =>
  cases r' with | mk m' snaps' =>
  rw [canon_record]
  simp [SnapshotRecord.toJson, jeq, jeqFields, jlookup, SnapshotRecord.mk.injEq,
    jeq_fileSnapList]

/-! ### The benchmark's aggregation step -/

theorem pyMin_eq_list_min (xs : List ℚ) : pyMin xs = xs.min? := by
  cases xs <;> rfl

theorem pyMax_eq_list_max (xs : List ℚ) : pyMax xs = xs.max? := by
  cases xs <;> rfl

/-- What Python's `min` returns is a member of the list and a lower bound
for it. -/
theorem pyMin_spec {xs : List ℚ} {m : ℚ} (h : pyMin xs = some m) :
    m ∈ xs ∧ ∀ x ∈ xs, m ≤ x := by
  rw [pyMin_eq_list_min] at h
  refine ⟨List.min?_mem (fun a b => min_choice a b) h, ?_⟩
  intro x hx
  exact (List.le_min?_iff (fun a b c => le_min_iff) h).mp le_rfl x hx

/-- What Python's `max` returns is a member of the list and an upper bound
for it. -/
theorem pyMax_spec {xs : List ℚ} {m : ℚ} (h : pyMax xs = some m) :
    m ∈ xs ∧ ∀ x ∈ xs, x ≤ m := by
  rw [pyMax_eq_list_max] at h
  refine ⟨List.max?_mem (fun a b => max_choice a b) h, ?_⟩
  intro x hx
  exact (List.max?_le_iff (fun a b c => max_le_iff) h).mp le_rfl x hx

/-- The timed loop records one sample per run. -/
theorem recordTimings_length (elapsed : ℕ → ℚ) (runs : ℕ) :
    (recordTimings elapsed runs).length = runs := by
  simp [recordTimings]

/-- With a nonzero sampling rate and at least one run, `benchFile`
succeeds, and its report is characterized exactly. -/
theorem benchFile_characterization (args : Args) (numel : String → ℕ)
    (elapsed : String → ℕ → ℚ) (path : String)
    (hsr : args.samplingRate ≠ 0) (hruns : 1 ≤ args.runs) :
    ∃ meanQ minQ maxQ,
      pyMean (recordTimings (elapsed path) args.runs) = some meanQ ∧
      pyMin (recordTimings (elapsed path) args.runs) = some minQ ∧
      pyMax (recordTimings (elapsed path) args.runs) = some maxQ ∧
      benchFile args numel elapsed path = some
        { path := path,
          duration := (numel path : ℚ) / (args.samplingRate : ℚ),
          runCount := args.runs,
          warmupCount := args.warmup,
          meanTime := meanQ,
          minTime := minQ,
          maxTime := maxQ,
          rtf := if (numel path : ℚ) / (args.samplingRate : ℚ) ≠ 0 then
              PyFloat.finite (meanQ / ((numel path : ℚ) / (args.samplingRate : ℚ)))
            else PyFloat.posInf } := by
  have hne : recordTimings (elapsed path) args.runs ≠ [] := by
    intro hcontra
    have := recordTimings_length (elapsed path) args.runs
    rw [hcontra] at this
    simp at this
    omega
  obtain ⟨t, ts, hts⟩ := List.exists_cons_of_ne_nil hne
  have hcast : (args.samplingRate : ℚ) ≠ 0 := Int.cast_ne_zero.mpr hsr
  refine ⟨(t :: ts).sum / (t :: ts).length, ts.foldl min t, ts.foldl max t, ?_, ?_, ?_, ?_⟩
  · rw [hts]; rfl
  · rw [hts]; rfl
  · rw [hts]; rfl
  · rw [benchFile, pyDiv, if_neg hcast]
    rw [hts]
    rfl

/-- C1-helper: the rtf field of the report produced by
`benchFile_characterization`, case-split on the duration. -/
theorem benchFile_rtf_cases (d m : ℚ) :
    ((if d ≠ 0 then PyFloat.finite (m / d) else PyFloat.posInf) = PyFloat.posInf ∧ d = 0) ∨
    ((if d ≠ 0 then PyFloat.finite (m / d) else PyFloat.posInf) = PyFloat.finite (m / d) ∧ d ≠ 0) := by
  by_cases hd : d = 0
  · left; rw [if_neg]; exact ⟨rfl, hd⟩
    simp [hd]
  · right; rw [if_pos hd]; exact ⟨rfl, hd⟩

/-! ### Claim theorems: benchmark arithmetic -/

/-- C1: For every benchmark run over a file, the reported real-time
factor equals `mean_duration / audio_duration_seconds` whenever the audio
duration is strictly positive, and is positive infinity when the audio
duration is zero (the audio duration being the sample count divided by the
sampling rate); the division branch of the rtf expression is only ever
taken with a nonzero divisor. -/
theorem c1_realtime_factor (args : Args) (numel : String → ℕ)
    (elapsed : String → ℕ → ℚ) (path : String)
    (hsr : args.samplingRate ≠ 0) (hruns : 1 ≤ args.runs) :
    ∃ rep, benchFile args numel elapsed path = some rep ∧
      rep.duration = (numel path : ℚ) / (args.samplingRate : ℚ) ∧
      (0 < rep.duration → rep.rtf = PyFloat.finite (rep.meanTime / rep.duration)) ∧
      (rep.duration = 0 → rep.rtf = PyFloat.posInf) ∧
      (∀ q, rep.rtf = PyFloat.finite q →
        rep.duration ≠ 0 ∧ q = rep.meanTime / rep.duration) := by
  obtain ⟨meanQ, minQ, maxQ, hm, hmin, hmax, hbench⟩ :=
    benchFile_characterization args numel elapsed path hsr hruns
  refine ⟨_, hbench, rfl, fun hpos => ?_, fun hz => ?_, fun q hq => ?_⟩
  · show (if (numel path : ℚ) / (args.samplingRate : ℚ) ≠ 0 then
        PyFloat.finite (meanQ / ((numel path : ℚ) / (args.samplingRate : ℚ)))
      else PyFloat.posInf) = _
    rw [if_pos (ne_of_gt hpos)]
  · show (if (numel path : ℚ) / (args.samplingRate : ℚ) ≠ 0 then
        PyFloat.finite (meanQ / ((numel path : ℚ) / (args.samplingRate : ℚ)))
      else PyFloat.posInf) = _
    rw [if_neg (fun hcon => hcon hz)]
  · by_cases hd : (numel path : ℚ) / (args.samplingRate : ℚ) = 0
    · exfalso
      have : (if (numel path : ℚ) / (args.samplingRate : ℚ) ≠ 0 then
          PyFloat.finite (meanQ / ((numel path : ℚ) / (args.samplingRate : ℚ)))
        else PyFloat.posInf) = PyFloat.finite q := hq
      rw [if_neg (fun hcon => hcon hd)] at this
      exact PyFloat.noConfusion this
    · refine ⟨hd, ?_⟩
      have : (if (numel path : ℚ) / (args.samplingRate : ℚ) ≠ 0 then
          PyFloat.finite (meanQ / ((numel path : ℚ) / (args.samplingRate : ℚ)))
        else PyFloat.posInf) = PyFloat.finite q := hq
      rw [if_pos hd] at this
      injection this with h
      exact h.symm

/-- Closed instance of `c1_realtime_factor`: 32000 samples at 16 kHz is a
2-second file, every detection call takes 0.5 s, and the hypotheses hold
at this input. -/
theorem c1_realtime_factor_witness :
    sampleArgs.samplingRate ≠ 0 ∧ 1 ≤ sampleArgs.runs ∧
      (∃ rep, benchFile sampleArgs sampleNumel constElapsed "test.wav" = some rep ∧
        rep.duration = (sampleNumel "test.wav" : ℚ) / (sampleArgs.samplingRate : ℚ) ∧
        (0 < rep.duration → rep.rtf = PyFloat.finite (rep.meanTime / rep.duration)) ∧
        (rep.duration = 0 → rep.rtf = PyFloat.posInf) ∧
        (∀ q, rep.rtf = PyFloat.finite q →
          rep.duration ≠ 0 ∧ q = rep.meanTime / rep.duration)) :=
  ⟨by decide, by decide,
    c1_realtime_factor sampleArgs sampleNumel constElapsed "test.wav" (by decide) (by decide)⟩

/-- C2: For every benchmark run over a file, the reported mean is the
arithmetic mean of exactly the `runs` recorded samples, and the reported
min/max are the true minimum/maximum of that sequence; moreover, on the
spec's mocked scenario (`runs = 3`, `warmup = 0`, durations
0.10 s / 0.20 s / 0.30 s) the aggregates come out as
mean = 0.20, min = 0.10, max = 0.30. -/
theorem c2_aggregation (args : Args) (numel : String → ℕ)
    (elapsed : String → ℕ → ℚ) (path : String)
    (hsr : args.samplingRate ≠ 0) (hruns : 1 ≤ args.runs) :
    (∃ rep, benchFile args numel elapsed path = some rep ∧
      (recordTimings (elapsed path) args.runs).length = args.runs ∧
      rep.meanTime = (recordTimings (elapsed path) args.runs).sum / (args.runs : ℚ) ∧
      rep.minTime ∈ recordTimings (elapsed path) args.runs ∧
      (∀ x ∈ recordTimings (elapsed path) args.runs, rep.minTime ≤ x) ∧
      rep.maxTime ∈ recordTimings (elapsed path) args.runs ∧
      (∀ x ∈ recordTimings (elapsed path) args.runs, x ≤ rep.maxTime)) ∧
    (benchFile sampleArgs sampleNumel rampElapsed "test.wav").map
        (fun r => (r.meanTime, r.minTime, r.maxTime)) = some (1/5, 1/10, 3/10) := by
  constructor
  · obtain ⟨meanQ, minQ, maxQ, hm, hmin, hmax, hbench⟩ :=
      benchFile_characterization args numel elapsed path hsr hruns
    obtain ⟨hminMem, hminLe⟩ := pyMin_spec hmin
    obtain ⟨hmaxMem, hmaxLe⟩ := pyMax_spec hmax
    refine ⟨_, hbench, recordTimings_length _ _, ?_, hminMem, hminLe, hmaxMem, hmaxLe⟩
    have : pyMean (recordTimings (elapsed path) args.runs) =
        some ((recordTimings (elapsed path) args.runs).sum /
          ((recordTimings (elapsed path) args.runs).length : ℚ)) := by
      have hne : recordTimings (elapsed path) args.runs ≠ [] := by
        intro hcontra
        have := recordTimings_length (elapsed path) args.runs
        rw [hcontra] at this
        simp at this
        omega
      obtain ⟨t, ts, hts⟩ := List.exists_cons_of_ne_nil hne
      rw [hts]
      rfl
    rw [this] at hm
    injection hm with hm
    rw [← hm, recordTimings_length]
  · have hr : List.range sampleArgs.runs = [0, 1, 2] := rfl
    have ht : recordTimings (rampElapsed "test.wav") sampleArgs.runs = [1/10, 1/5, 3/10] := by
      rw [recordTimings, hr]
      norm_num [rampElapsed]
    rw [benchFile, pyDiv, ht]
    norm_num [sampleArgs, sampleNumel, pyMean, pyMin, pyMax]

/-- Closed instance of `c2_aggregation` at the spec's mocked scenario. -/
theorem c2_aggregation_witness :
    sampleArgs.samplingRate ≠ 0 ∧ 1 ≤ sampleArgs.runs ∧
      ((∃ rep, benchFile sampleArgs sampleNumel rampElapsed "test.wav" = some rep ∧
        (recordTimings (rampElapsed "test.wav") sampleArgs.runs).length = sampleArgs.runs ∧
        rep.meanTime =
          (recordTimings (rampElapsed "test.wav") sampleArgs.runs).sum / (sampleArgs.runs : ℚ) ∧
        rep.minTime ∈ recordTimings (rampElapsed "test.wav") sampleArgs.runs ∧
        (∀ x ∈ recordTimings (rampElapsed "test.wav") sampleArgs.runs, rep.minTime ≤ x) ∧
        rep.maxTime ∈ recordTimings (rampElapsed "test.wav") sampleArgs.runs ∧
        (∀ x ∈ recordTimings (rampElapsed "test.wav") sampleArgs.runs, x ≤ rep.maxTime)) ∧
      (benchFile sampleArgs sampleNumel rampElapsed "test.wav").map
          (fun r => (r.meanTime, r.minTime, r.maxTime)) = some (1/5, 1/10, 3/10)) :=
  ⟨by decide, by decide,
    c2_aggregation sampleArgs sampleNumel rampElapsed "test.wav" (by decide) (by decide)⟩

/-- C7: Under the precondition `runs ≥ 1` the per-file aggregation is
well defined (the empty-sequence error branch is unreachable); with
`runs = 0` the benchmark reaches the unguarded empty-sequence aggregation
and errors out. -/
theorem c7_runs_precondition (args : Args) (numel : String → ℕ)
    (elapsed : String → ℕ → ℚ) (path : String) (hsr : args.samplingRate ≠ 0) :
    (1 ≤ args.runs → ∃ rep, benchFile args numel elapsed path = some rep) ∧
    (args.runs = 0 → benchFile args numel elapsed path = none) := by
  constructor
  · intro hruns
    obtain ⟨meanQ, minQ, maxQ, _, _, _, hbench⟩ :=
      benchFile_characterization args numel elapsed path hsr hruns
    exact ⟨_, hbench⟩
  · intro h0
    rw [benchFile, pyDiv, if_neg (Int.cast_ne_zero.mpr hsr)]
    simp [recordTimings, h0, pyMean]

/-- Closed instance of `c7_runs_precondition`: the sample configuration
with three runs succeeds, and the same configuration with zero runs
errors. -/
theorem c7_runs_precondition_witness :
    sampleArgs.samplingRate ≠ 0 ∧
      ((1 ≤ sampleArgs.runs →
        ∃ rep, benchFile sampleArgs sampleNumel rampElapsed "test.wav" = some rep) ∧
      (sampleArgs.runs = 0 →
        benchFile sampleArgs sampleNumel rampElapsed "test.wav" = none)) ∧
      benchFile { sampleArgs with runs := 0 } sampleNumel rampElapsed "test.wav" = none :=
  ⟨by decide,
    c7_runs_precondition sampleArgs sampleNumel rampElapsed "test.wav" (by decide),
    ((c7_runs_precondition { sampleArgs with runs := 0 } sampleNumel rampElapsed "test.wav"
      (by decide)).2 rfl)⟩

/-! ### Claim theorems: benchmark call structure -/

theorem countP_flatMap_ev (l : List String) (f : String → List Ev) (p : Ev → Bool) :
    (l.flatMap f).countP p = (l.map (fun s => (f s).countP p)).sum := by
  induction l with
  | nil => simp
  | cons x xs ih => simp [List.flatMap_cons, List.countP_append, ih]

/-- C6: For every run configuration: the model is loaded exactly once
for the whole process (independent of the number of files); each file is
read exactly as often as it occurs in the input list; each file-loop
iteration makes exactly `warmup` discarded detection calls followed by
exactly `runs` timed detection calls (the first `1 + warmup` events of a
file's trace are the read and the warmup calls, everything after is the
timed calls); and exactly `runs` timing samples are recorded per file. -/
theorem c6_call_counts (args : Args) (elapsed : String → ℕ → ℚ) :
    (mainTrace args).countP isLoadEv = 1 ∧
    (∀ p, (mainTrace args).countP (isReadEv p) = args.audio.count p) ∧
    (∀ p, (mainTrace args).countP (isDetectEv p false) = args.warmup * args.audio.count p) ∧
    (∀ p, (mainTrace args).countP (isDetectEv p true) = args.runs * args.audio.count p) ∧
    (∀ p, (fileTrace args p).take (1 + args.warmup) =
      Ev.readFile p args.samplingRate :: List.replicate args.warmup (Ev.detect p false)) ∧
    (∀ p, (fileTrace args p).drop (1 + args.warmup) =
      List.replicate args.runs (Ev.detect p true)) ∧
    (∀ p, (recordTimings (elapsed p) args.runs).length = args.runs) := by
  refine ⟨?_, ?_, ?_, ?_, ?_, ?_, fun p => recordTimings_length _ _⟩
  · rw [mainTrace, List.countP_cons, countP_flatMap_ev]
    have hper : ∀ q, (fileTrace args q).countP isLoadEv = 0 := by
      intro q
      simp [fileTrace, List.countP_cons, List.countP_append, List.countP_replicate, isLoadEv]
    simp [hper, isLoadEv]
  · intro p
    rw [mainTrace, List.countP_cons, countP_flatMap_ev]
    have hper : ∀ q, (fileTrace args q).countP (isReadEv p) =
        if q = p then 1 else 0 := by
      intro q
      simp only [fileTrace, List.countP_cons, List.countP_append, List.countP_replicate,
        isReadEv, isDetectEv]
      by_cases hq : q = p <;> simp [hq, isReadEv]
    have hsum : ∀ l : List String,
        (l.map (fun q => if q = p then 1 else 0)).sum = l.count p := by
      intro l
      induction l with
      | nil => simp
      | cons x xs ih =>
        by_cases hx : x = p
        · subst hx; simp [List.count_cons, ih, Nat.add_comm]
        · simp [hx, List.count_cons, ih]
    simp only [hper, hsum, isReadEv, List.countP_cons]
    simp [isReadEv]
  · intro p
    rw [mainTrace, List.countP_cons, countP_flatMap_ev]
    have hper : ∀ q, (fileTrace args q).countP (isDetectEv p false) =
        if q = p then args.warmup else 0 := by
      intro q
      simp only [fileTrace, List.countP_cons, List.countP_append, List.countP_replicate,
        isReadEv, isDetectEv]
      by_cases hq : q = p <;> simp [hq, isDetectEv]
    have hsum : ∀ l : List String,
        (l.map (fun q => if q = p then args.warmup else 0)).sum =
          args.warmup * l.count p := by
      intro l
      induction l with
      | nil => simp
      | cons x xs ih =>
        by_cases hx : x = p
        · subst hx; simp [List.count_cons, ih, Nat.mul_succ, Nat.add_comm]
        · simp [hx, List.count_cons, ih]
    simp only [hper, hsum, List.countP_cons]
    simp [isDetectEv]
  · intro p
    rw [mainTrace, List.countP_cons, countP_flatMap_ev]
    have hper : ∀ q, (fileTrace args q).countP (isDetectEv p true) =
        if q = p then args.runs else 0 := by
      intro q
      simp only [fileTrace, List.countP_cons, List.countP_append, List.countP_replicate,
        isReadEv, isDetectEv]
      by_cases hq : q = p <;> simp [hq, isDetectEv]
    have hsum : ∀ l : List String,
        (l.map (fun q => if q = p then args.runs else 0)).sum =
          args.runs * l.count p := by
      intro l
      induction l with
      | nil => simp
      | cons x xs ih =>
        by_cases hx : x = p
        · subst hx; simp [List.count_cons, ih, Nat.mul_succ, Nat.add_comm]
        · simp [hx, List.count_cons, ih]
    simp only [hper, hsum, List.countP_cons]
    simp [isDetectEv]
  · intro p
    rw [fileTrace, Nat.add_comm 1 args.warmup, List.take_succ_cons,
      List.take_left' (List.length_replicate _ _)]
  · intro p
    rw [fileTrace, Nat.add_comm 1 args.warmup, List.drop_succ_cons,
      List.drop_left' (List.length_replicate _ _)]

/-! ### Claim theorems: opset flow and thread pinning -/

/-- C8 counterexample: Two run configurations that differ only in the
opset value, both with the onnx flag off, do not make identical calls: the
benchmark passes `opset_version` to `load_silero_vad` unconditionally, so
the load call itself differs. -/
theorem c8_opset_counterexample :
    sampleArgs.onnx = false ∧
    ({ sampleArgs with opset := 17 } : Args).onnx = false ∧
    mainTrace sampleArgs ≠ mainTrace { sampleArgs with opset := 17 } := by
  refine ⟨rfl, rfl, ?_⟩
  decide

/-- C8 amended: The opset value is passed verbatim into the single
model-load call (even with onnx off); apart from the opset argument of
that one call, the calls made and the reports produced by two
configurations differing only in the opset are identical. -/
theorem c8_opset_flow (a : Args) (o' : ℤ) (numel : String → ℕ)
    (elapsed : String → ℕ → ℚ) (_honnx : a.onnx = false) :
    (mainTrace a).head? = some (Ev.loadModel a.onnx a.opset) ∧
    (mainTrace a).map scrubOpset = (mainTrace { a with opset := o' }).map scrubOpset ∧
    mainReports a numel elapsed = mainReports { a with opset := o' } numel elapsed := by
  exact ⟨rfl, rfl, rfl⟩

/-- Closed instance of `c8_opset_flow` at the sample configuration and
opset 17. -/
theorem c8_opset_flow_witness :
    sampleArgs.onnx = false ∧
    ((mainTrace sampleArgs).head? = some (Ev.loadModel sampleArgs.onnx sampleArgs.opset) ∧
     (mainTrace sampleArgs).map scrubOpset =
       (mainTrace { sampleArgs with opset := 17 }).map scrubOpset ∧
     mainReports sampleArgs sampleNumel rampElapsed =
       mainReports { sampleArgs with opset := 17 } sampleNumel rampElapsed) :=
  ⟨rfl, c8_opset_flow sampleArgs 17 sampleNumel rampElapsed rfl⟩

/-- C9 counterexample: The Benchmark Runner makes detection calls but
never pins the inference runtime's thread count: its call trace contains a
detection event and no `set_num_threads` event at all (the pin exists only
in `tests/test_snapshots.py`). -/
theorem c9_pin_counterexample :
    (∃ e ∈ mainTrace sampleArgs, isAnyDetectEv e = true) ∧
    (∀ e ∈ mainTrace sampleArgs, isPinEv e = false) := by
  decide

/-- C9 amended: In the Snapshot Regression Tool, the thread-count
pin (set at module import) precedes every detection call; the Benchmark
Runner makes no thread-count pin at all, for any configuration. -/
theorem c9_thread_pin (args : Args) :
    (∀ i (h : i < snapshotModuleTrace.length),
        isAnyDetectEv (snapshotModuleTrace.get ⟨i, h⟩) = true →
        ∃ j, ∃ hj : j < snapshotModuleTrace.length, j < i ∧
          snapshotModuleTrace.get ⟨j, hj⟩ = Ev.setNumThreads 1) ∧
    (∀ e ∈ mainTrace args, isPinEv e = false) := by
  constructor
  · intro i h hd
    match i with
    | 0 =>
      rw [show snapshotModuleTrace.get ⟨0, h⟩ = Ev.setNumThreads 1 from rfl] at hd
      exact absurd hd (by decide)
    | i + 1 => exact ⟨0, by decide, Nat.succ_pos i, rfl⟩
  · intro e he
    rw [mainTrace] at he
    rcases List.mem_cons.mp he with rfl | hmem
    · rfl
    · obtain ⟨p, hp, hpe⟩ := List.mem_flatMap.mp hmem
      rw [fileTrace] at hpe
      rcases List.mem_cons.mp hpe with rfl | hpe2
      · rfl
      · rcases List.mem_append.mp hpe2 with h3 | h3
        · rw [List.eq_of_mem_replicate h3]; rfl
        · rw [List.eq_of_mem_replicate h3]; rfl

/-- Closed instance of `c9_thread_pin`: the detection call at index 3 of
the snapshot test trace is preceded by the pin, and a concrete benchmark
event is not a pin. -/
theorem c9_thread_pin_witness :
    (∃ j, ∃ hj : j < snapshotModuleTrace.length, j < 3 ∧
      snapshotModuleTrace.get ⟨j, hj⟩ = Ev.setNumThreads 1) ∧
    isPinEv (Ev.loadModel false 16) = false :=
  ⟨(c9_thread_pin sampleArgs).1 3 (by decide) (by decide),
   (c9_thread_pin sampleArgs).2 (Ev.loadModel false 16) (by decide)⟩

/-! ### Claim theorems: the snapshot check -/

/-- C3: Against a store whose snapshot file is absent or holds a
deserializable document, the snapshot check fails exactly when the file is
absent — in which case the computed record is serialized and written, so
creation never silently passes — or the file is present and the computed
record is not `==`-equal to the deserialized stored record; it passes
exactly when the file is present and the two are equal. -/
theorem c3_fail_iff (st : FSState) (d : Json)
    (h : st.snapshotFile = none ∨
      ∃ content e, st.snapshotFile = some content ∧ jsonLoad content = some e) :
    ((writeOrAssert st d).2 ≠ TestOutcome.passed ↔
      (st.snapshotFile = none ∨
        ∃ content e, st.snapshotFile = some content ∧ jsonLoad content = some e ∧
          jeq d e = false)) ∧
    (st.snapshotFile = none →
      (writeOrAssert st d).1.snapshotFile = some (jsonDump d)) ∧
    ((writeOrAssert st d).2 = TestOutcome.passed ↔
      ∃ content e, st.snapshotFile = some content ∧ jsonLoad content = some e ∧
        jeq d e = true) := by
  obtain ⟨dir, file⟩ := st
  rcases h with hnone | ⟨content, e, hsome, hload⟩
  · simp only at hnone
    subst hnone
    refine ⟨?_, fun _ => rfl, ?_⟩
    · simp [writeOrAssert]
    · simp [writeOrAssert]
  · simp only at hsome
    subst hsome
    by_cases hj : jeq d e = true
    · refine ⟨?_, fun hc => by simp at hc, ?_⟩
      · simp [writeOrAssert, hload, hj]
      · simp [writeOrAssert, hload, hj]
    · have hj' : jeq d e = false := by
        cases hq : jeq d e
        · rfl
        · exact absurd hq hj
      refine ⟨?_, fun hc => by simp at hc, ?_⟩
      · simp [writeOrAssert, hload, hj]
      · simp [writeOrAssert, hload, hj]

/-- Closed instance of `c3_fail_iff` at an absent snapshot file. -/
theorem c3_fail_iff_witness :
    ((writeOrAssert ⟨false, none⟩ Json.null).2 ≠ TestOutcome.passed ↔
      ((⟨false, none⟩ : FSState).snapshotFile = none ∨
        ∃ content e, (⟨false, none⟩ : FSState).snapshotFile = some content ∧
          jsonLoad content = some e ∧ jeq Json.null e = false)) ∧
    ((⟨false, none⟩ : FSState).snapshotFile = none →
      (writeOrAssert ⟨false, none⟩ Json.null).1.snapshotFile =
        some (jsonDump Json.null)) ∧
    ((writeOrAssert ⟨false, none⟩ Json.null).2 = TestOutcome.passed ↔
      ∃ content e, (⟨false, none⟩ : FSState).snapshotFile = some content ∧
        jsonLoad content = some e ∧ jeq Json.null e = true) :=
  c3_fail_iff ⟨false, none⟩ Json.null (Or.inl rfl)

/-- C4: Snapshot comparison is exact structural equality with no
tolerance: a run against a stored record passes exactly when the computed
record equals the stored one, and any difference — in particular a single
`end` timestamp moved by any nonzero amount — yields a mismatch failure. -/
theorem c4_exact_equality (r r' : SnapshotRecord) (b : Bool) :
    ((writeOrAssert ⟨b, some (jsonDump (SnapshotRecord.toJson r'))⟩
        (SnapshotRecord.toJson r)).2 = TestOutcome.passed ↔ r = r') ∧
    (r ≠ r' →
      (writeOrAssert ⟨b, some (jsonDump (SnapshotRecord.toJson r'))⟩
          (SnapshotRecord.toJson r)).2 = TestOutcome.failedMismatch) := by
  have hload := jsonLoad_jsonDump (SnapshotRecord.toJson r')
  by_cases hj : jeq (SnapshotRecord.toJson r) (canon (SnapshotRecord.toJson r')) = true
  · have hrr := (jeq_record r r').mp hj
    subst hrr
    exact ⟨by simp [writeOrAssert, hload, hj], fun hc => absurd rfl hc⟩
  · have hrr : ¬ r = r' := fun hcon => hj ((jeq_record r r').mpr hcon)
    have hj' : jeq (SnapshotRecord.toJson r) (canon (SnapshotRecord.toJson r')) = false := by
      cases hq : jeq (SnapshotRecord.toJson r) (canon (SnapshotRecord.toJson r'))
      · rfl
      · exact absurd hq hj
    refine ⟨?_, fun _ => ?_⟩
    · simp [writeOrAssert, hload, hj', hrr]
    · simp [writeOrAssert, hload, hj']

/-- Closed instance of `c4_exact_equality`: records that agree pass, and
moving one `end` timestamp by 0.001 gives a mismatch failure. -/
theorem c4_exact_equality_witness :
    ((writeOrAssert ⟨true, some (jsonDump (SnapshotRecord.toJson snapRecA))⟩
        (SnapshotRecord.toJson snapRecA)).2 = TestOutcome.passed ↔ snapRecA = snapRecA) ∧
    (writeOrAssert ⟨true, some (jsonDump (SnapshotRecord.toJson snapRecB))⟩
        (SnapshotRecord.toJson snapRecA)).2 = TestOutcome.failedMismatch :=
  ⟨(c4_exact_equality snapRecA snapRecA true).1,
   (c4_exact_equality snapRecA snapRecB true).2 (by
      simp only [snapRecA, snapRecB, ne_eq, SnapshotRecord.mk.injEq,
        FileSnapshot.mk.injEq, SpeechSegment.mk.injEq, List.cons.injEq, and_true,
        List.cons_ne_nil]
      norm_num)⟩

/-- C5: Writing a snapshot record and reading it back reproduces a
structure `==`-equal to the original; consequently a first run against a
missing snapshot file writes the computed record and fails, and a second
run with identical data against the now-present file passes. -/
theorem c5_roundtrip (r : SnapshotRecord) (b : Bool) :
    (∃ loaded, jsonLoad (jsonDump (SnapshotRecord.toJson r)) = some loaded ∧
      jeq (SnapshotRecord.toJson r) loaded = true) ∧
    (writeOrAssert ⟨b, none⟩ (SnapshotRecord.toJson r)).2 =
      TestOutcome.failedSnapshotCreated ∧
    (writeOrAssert ⟨b, none⟩ (SnapshotRecord.toJson r)).1.snapshotFile =
      some (jsonDump (SnapshotRecord.toJson r)) ∧
    (writeOrAssert ((writeOrAssert ⟨b, none⟩ (SnapshotRecord.toJson r)).1)
        (SnapshotRecord.toJson r)).2 = TestOutcome.passed := by
  have hload := jsonLoad_jsonDump (SnapshotRecord.toJson r)
  have hjeq : jeq (SnapshotRecord.toJson r) (canon (SnapshotRecord.toJson r)) = true :=
    (jeq_record r r).mpr rfl
  refine ⟨⟨canon (SnapshotRecord.toJson r), hload, hjeq⟩, rfl, rfl, ?_⟩
  simp [writeOrAssert, hload, hjeq]

/-- C10: Every invocation of the snapshot check (re)creates the
snapshot directory idempotently; the snapshot file is written only in the
absent-file branch, and a comparison run leaves the stored file untouched. -/
theorem c10_frame (st : FSState) (d : Json) :
    (writeOrAssert st d).1.dirCreated = true ∧
    (∀ c, st.snapshotFile = some c → (writeOrAssert st d).1.snapshotFile = some c) ∧
    (st.snapshotFile = none →
      (writeOrAssert st d).1.snapshotFile = some (jsonDump d)) := by
  obtain ⟨dir, file⟩ := st
  cases file with
  | none =>
    exact ⟨rfl, fun c hc => Option.noConfusion hc, fun _ => rfl⟩
  | some content =>
    rcases hl : jsonLoad content with _ | e
    · exact ⟨by simp [writeOrAssert, hl], fun c hc => by
        injection hc with hc
        subst hc
        simp [writeOrAssert, hl], fun hc => Option.noConfusion hc⟩
    · exact ⟨by simp [writeOrAssert, hl], fun c hc => by
        injection hc with hc
        subst hc
        simp [writeOrAssert, hl], fun hc => Option.noConfusion hc⟩

/-- Closed instance of `c10_frame`: a creation run writes the file and
sets the directory flag; a comparison run leaves the stored content as it
was. -/
theorem c10_frame_witness :
    (writeOrAssert ⟨false, none⟩ Json.null).1.dirCreated = true ∧
    (writeOrAssert ⟨false, none⟩ Json.null).1.snapshotFile = some (jsonDump Json.null) ∧
    (writeOrAssert ⟨true, some (jsonDump Json.null)⟩ Json.null).1.snapshotFile =
      some (jsonDump Json.null) :=
  ⟨(c10_frame ⟨false, none⟩ Json.null).1,
   (c10_frame ⟨false, none⟩ Json.null).2.2 rfl,
   (c10_frame ⟨true, some (jsonDump Json.null)⟩ Json.null).2.1 (jsonDump Json.null) rfl⟩

end Silero
